import Mathlib

/-!
# Verification of the querylib graph-migration engine

A shallow embedding, in Lean 4, of the Rust sources of `querylib`
(`src/lib.rs`, `src/migrations.rs`, `src/parameterize.rs`): a
schema-migration engine for a graph database.  The external store is
modelled as an explicit state (`Store`); the driver's row streams, the
failure points of its transactional API, and the file system are modelled
explicitly, so that every embedded function is an executable Lean
definition mirroring the corresponding Rust function line by line.
-/

namespace Querylib

/-! ## Data model (`src/migrations.rs`)

`FileMigration` and `MigrationsNode` are direct translations of the Rust
structs.  `chrono::DateTime<Utc>` is modelled as an abstract instant
(`Nat`): the only operations the code performs on timestamps are reading
the wall clock (`Utc::now()`) and storing the value. -/

/-- Struct `FileMigration` (migrations.rs lines 14-19): a migration discovered on disk. -/
structure FileMigration where
  checksum : String
  file_name : String
  cypher_text : String
  deriving DecidableEq, Repr

/-- Struct `MigrationsNode` (migrations.rs lines 22-29): a persisted chain node.
`version : u64` becomes `Nat` (the code only computes `counter + 1`, far from
overflow for any list that fits in memory); `timestamp` is an abstract instant. -/
structure MigrationsNode where
  checksum : String
  file_name : String
  cypher_text : String
  version : Nat
  timestamp : Nat
  deriving DecidableEq, Repr

/-- Error type `QueryError` (lib.rs lines 11-24).  The payloads of the first three
variants (driver errors, deserializer errors, serde errors) are opaque to
this code, so they are dropped. -/
inductive QueryError where
  | ExecutionError
  | NeoDeError
  | SerializationError
  | NoRecordsFound
  deriving DecidableEq, Repr

/-- Error type `MigrationError` (migrations.rs lines 31-41). -/
inductive MigrationError where
  | ChecksumMismatch
  | Neo4jError
  | QueryError (e : QueryError)
  deriving DecidableEq, Repr

/-! ## Row streams and the single/get_single/all helpers (`src/lib.rs`)

A `RowStream` is the sequence of outcomes of successive `results.next(tx)`
calls: each element is either a row (`Except.ok`) or a transport failure of
the stream advance (`Except.error`); the end of the list is `next`
returning `None`.  Deserialization of a row (`row.to::<T>()`) is a pure
function of the row that may fail, passed in as `conv`. -/

/-- A row stream: outcomes of successive `next` calls. -/
abbrev RowStream (Row : Type) : Type := List (Except Unit Row)

/-- Function `get_single` (lib.rs lines 27-40): the safe variant of `single`.
If `next` yields a row, deserialize it as `Option T` (`row.to::<Option<T>>()?`,
deserializer failure becoming `NeoDeError`); if `next` yields nothing,
return `Ok(None)`; a failing `next` becomes `ExecutionError` via `?`. -/
def get_single {Row T : Type} (conv : Row → Except Unit (Option T)) :
    RowStream Row → Except QueryError (Option T)
  | [] => .ok none
  | .error _ :: _ => .error .ExecutionError
  | .ok r :: _ =>
    match conv r with
    | .ok d => .ok d
    | .error _ => .error .NeoDeError

/-- Function `single` (lib.rs lines 42-50): first row or `NoRecordsFound`; a failing
`next` becomes `ExecutionError`, a failing `row.to::<T>()` becomes `NeoDeError`. -/
def single {Row T : Type} (conv : Row → Except Unit T) :
    RowStream Row → Except QueryError T
  | [] => .error .NoRecordsFound
  | .error _ :: _ => .error .ExecutionError
  | .ok r :: _ =>
    match conv r with
    | .ok t => .ok t
    | .error _ => .error .NeoDeError

/-- Function `all` (lib.rs lines 52-70): loop over the stream; a failing `next`
aborts with `ExecutionError` (the `?`); a row whose conversion fails is
dropped (`Err(_) => ()`); otherwise the converted rows are collected in order. -/
def all {Row T : Type} (conv : Row → Except Unit T) :
    RowStream Row → Except QueryError (List T)
  | [] => .ok []
  | .error _ :: _ => .error .ExecutionError
  | .ok r :: rest =>
    match conv r with
    | .ok t => (all conv rest).map (fun out => t :: out)
    | .error _ => all conv rest

/-! ## The store model

The target graph database, as seen through the only queries this code
issues: a set of `DataModelMigration` nodes (`chain`, in creation order),
the cypher scripts whose execution has been committed (`executed`, in
commit order), and a wall clock (`clock`, ticked by every `Utc::now()`
call).  Store effects staged by `tx.run` become visible at `tx.commit`. -/

/-- The observable state of the target store plus the wall clock. -/
structure Store where
  chain : List MigrationsNode
  executed : List String
  clock : Nat
  deriving DecidableEq, Repr

/-- A transaction lifecycle event against the store.  `rollback` covers
every release that is not a successful commit: an explicit abort by the
server on a failed commit, or the release performed when the `Txn` value
is dropped on an error path or at scope exit (Rust RAII). -/
inductive TxEvent where
  | start
  | commit
  | rollback
  deriving DecidableEq, Repr

/-- Number of transactions opened in a trace. -/
def startCount (tr : List TxEvent) : Nat :=
  (tr.filter (fun e => e = TxEvent.start)).length

/-- Number of transactions released (committed or rolled back) in a trace. -/
def releaseCount (tr : List TxEvent) : Nat :=
  (tr.filter (fun e => e = TxEvent.commit ∨ e = TxEvent.rollback)).length

/-! ## Failure oracles

The driver calls (`start_txn_on`, `tx.run`, `tx.commit`, `tx.execute`,
`results.next`) can each fail.  An oracle fixes, per call site, whether the
call fails; the embedded functions are deterministic given the oracle.
`true` means the call fails with a driver error. -/

/-- Failure oracle for the five driver calls of `create_migration_node`,
in program order (two transactions, each with one run and one commit). -/
structure CreateNodeOracle where
  start_script_tx : Bool
  run_script : Bool
  commit_script_tx : Bool
  start_node_tx : Bool
  run_node : Bool
  commit_node_tx : Bool
  deriving DecidableEq, Repr

/-- The all-successful oracle for `create_migration_node`. -/
def okCreate : CreateNodeOracle :=
  ⟨false, false, false, false, false, false⟩

/-- Failure oracle for the driver calls of `get_existing_migration`:
`start_txn_on`, `tx.execute`, and the `results.next` call made inside
`get_single`. -/
structure GetExistingOracle where
  start_tx : Bool
  execute_q : Bool
  next_row : Bool
  deriving DecidableEq, Repr

/-- The all-successful oracle for `get_existing_migration`. -/
def okGet : GetExistingOracle :=
  ⟨false, false, false⟩

/-! ## GraphMigrator: the transactional functions (`src/migrations.rs`)

Each embedded function returns the resulting store, the trace of
transaction lifecycle events it produced, and its Rust return value.  A
`Txn` value dropped without commit (every early `return Err` after a
successful `start_txn_on`, and the scope exit of `get_existing_migration`,
which never commits) releases the transaction: the embedding records this
Rust RAII release as a `rollback` event.  A failed `commit` also releases
the transaction (`commit` consumes the `Txn`): recorded as `rollback`. -/

/-- Function `create_migration_node` (migrations.rs lines 114-145).  Opens a
transaction, builds the new `MigrationsNode` (reading `Utc::now()`:
`timestamp := st.clock`, and the clock ticks), runs the candidate's
`cypher_text` and commits; then, in a second transaction, runs the
node-creation query (staged insertion of the node) and commits. -/
def create_migration_node (o : CreateNodeOracle) (counter : Nat) (st : Store)
    (migration : FileMigration) :
    Store × List TxEvent × Except MigrationError (Option MigrationsNode) :=
  if o.start_script_tx then (st, [], .error .Neo4jError)
  else
    let new_node : MigrationsNode :=
      { checksum := migration.checksum
        file_name := migration.file_name
        cypher_text := migration.file_name
        version := counter + 1
        timestamp := st.clock }
    let st0 : Store := { st with clock := st.clock + 1 }
    if o.run_script then (st0, [.start, .rollback], .error .Neo4jError)
    else if o.commit_script_tx then (st0, [.start, .rollback], .error .Neo4jError)
    else
      let st1 : Store := { st0 with executed := st0.executed ++ [migration.cypher_text] }
      if o.start_node_tx then (st1, [.start, .commit], .error .Neo4jError)
      else if o.run_node then (st1, [.start, .commit, .start, .rollback], .error .Neo4jError)
      else if o.commit_node_tx then (st1, [.start, .commit, .start, .rollback], .error .Neo4jError)
      else
        ({ st1 with chain := st1.chain ++ [new_node] },
         [.start, .commit, .start, .commit], .ok none)

/-- Function `get_existing_migration` (migrations.rs lines 148-167).  Opens a
transaction, executes the `MATCH (m:DataModelMigration { file_name: $n })
RETURN m` query — whose row stream is the chain nodes bearing that
file name, in chain order — and hands the stream to `get_single`.  The
rows are well-formed nodes, so `row.to::<Option<MigrationsNode>>()`
succeeds with `Some`.  The transaction is never committed: it is released
when `tx` is dropped at every exit. -/
def get_existing_migration (o : GetExistingOracle) (st : Store) (name : String) :
    List TxEvent × Except MigrationError (Option MigrationsNode) :=
  if o.start_tx then ([], .error .Neo4jError)
  else if o.execute_q then ([.start, .rollback], .error .Neo4jError)
  else
    let results : RowStream MigrationsNode :=
      if o.next_row then [.error ()]
      else (st.chain.filter (fun m => m.file_name = name)).map .ok
    match get_single (fun r => .ok (some r)) results with
    | .ok migration => ([.start, .rollback], .ok migration)
    | .error err => ([.start, .rollback], .error (.QueryError err))

/-- Function `up_migration` (migrations.rs lines 81-111).  Looks up an existing
record; on a hit with a differing checksum fails with `ChecksumMismatch`;
on a hit with a matching checksum skips; on a miss applies the migration
via `create_migration_node`. -/
def up_migration (og : GetExistingOracle) (oc : CreateNodeOracle) (counter : Nat)
    (st : Store) (migration : FileMigration) :
    Store × List TxEvent × Option MigrationError :=
  match get_existing_migration og st migration.file_name with
  | (tr, .error e) => (st, tr, some e)
  | (tr, .ok (some existing_migration)) =>
    if existing_migration.checksum ≠ migration.checksum then
      (st, tr, some .ChecksumMismatch)
    else
      (st, tr, none)
  | (tr, .ok none) =>
    match create_migration_node oc counter st migration with
    | (st1, tr1, .error e) => (st1, tr ++ tr1, some e)
    | (st1, tr1, .ok _) => (st1, tr ++ tr1, none)

/-- The loop body of `run_migrations` (migrations.rs lines 72-75) from
counter `i` on, against a reliable store (every driver call succeeds: the
oracles are `okGet`/`okCreate`).  `?` propagates the first failure and no
later migration is attempted. -/
def run_migrations_from (i : Nat) (st : Store) :
    List FileMigration → Store × Option MigrationError
  | [] => (st, none)
  | migration :: rest =>
    match up_migration okGet okCreate i st migration with
    | (st1, _, some e) => (st1, some e)
    | (st1, _, none) => run_migrations_from (i + 1) st1 rest

/-- Function `run_migrations` (migrations.rs lines 64-78): iterates the candidate
list with `enumerate` (0-based counter), halting at the first error. -/
def run_migrations (st : Store) (migrations : List FileMigration) :
    Store × Option MigrationError :=
  run_migrations_from 0 st migrations

end Querylib

/-! ## SHA-256 (the `sha256` crate's `digest` function)

`calculate_checksum` calls `sha256::digest(content)`, returning the
lowercase hex digest of the SHA-256 hash of the UTF-8 bytes of `content`.
The hash is implemented here from FIPS 180-4, over `Nat` with explicit
`% 2^32` wraparound. -/

namespace sha256

/-- Constant 2^32: the modulus of 32-bit word arithmetic. -/
def M32 : Nat := 4294967296

/-- Right rotation of a 32-bit word by `n` bits. -/
def rotr (n x : Nat) : Nat := ((x >>> n) ||| (x <<< (32 - n))) % M32

/-- Sigma0 of FIPS 180-4. -/
def bsig0 (x : Nat) : Nat := (rotr 2 x) ^^^ (rotr 13 x) ^^^ (rotr 22 x)

/-- Sigma1 of FIPS 180-4. -/
def bsig1 (x : Nat) : Nat := (rotr 6 x) ^^^ (rotr 11 x) ^^^ (rotr 25 x)

/-- Small sigma0 of FIPS 180-4. -/
def ssig0 (x : Nat) : Nat := (rotr 7 x) ^^^ (rotr 18 x) ^^^ (x >>> 3)

/-- Small sigma1 of FIPS 180-4. -/
def ssig1 (x : Nat) : Nat := (rotr 17 x) ^^^ (rotr 19 x) ^^^ (x >>> 10)

/-- Ch(x,y,z); ¬x is taken within 32 bits. -/
def ch (x y z : Nat) : Nat := (x &&& y) ^^^ ((x ^^^ (M32 - 1)) &&& z)

/-- Maj(x,y,z). -/
def maj (x y z : Nat) : Nat := (x &&& y) ^^^ (x &&& z) ^^^ (y &&& z)

/-- The 64 round constants K. -/
def K : List Nat :=
  [1116352408, 1899447441, 3049323471, 3921009573, 961987163, 1508970993,
   2453635748, 2870763221, 3624381080, 310598401, 607225278, 1426881987,
   1925078388, 2162078206, 2614888103, 3248222580, 3835390401, 4022224774,
   264347078, 604807628, 770255983, 1249150122, 1555081692, 1996064986,
   2554220882, 2821834349, 2952996808, 3210313671, 3336571891, 3584528711,
   113926993, 338241895, 666307205, 773529912, 1294757372, 1396182291,
   1695183700, 1986661051, 2177026350, 2456956037, 2730485921, 2820302411,
   3259730800, 3345764771, 3516065817, 3600352804, 4094571909, 275423344,
   430227734, 506948616, 659060556, 883997877, 958139571, 1322822218,
   1537002063, 1747873779, 1955562222, 2024104815, 2227730452, 2361852424,
   2428436474, 2756734187, 3204031479, 3329325298]

/-- The initial hash value H⁽⁰⁾. -/
def H0 : List Nat :=
  [1779033703, 3144134277, 1013904242, 2773480762,
   1359893119, 2600822924, 528734635, 1541459225]

/-- UTF-8 encoding of one scalar value (what Rust's `str::as_bytes` holds). -/
def utf8Bytes (c : Char) : List Nat :=
  let n := c.toNat
  if n < 0x80 then [n]
  else if n < 0x800 then
    [0xC0 ||| (n >>> 6), 0x80 ||| (n &&& 0x3F)]
  else if n < 0x10000 then
    [0xE0 ||| (n >>> 12), 0x80 ||| ((n >>> 6) &&& 0x3F), 0x80 ||| (n &&& 0x3F)]
  else
    [0xF0 ||| (n >>> 18), 0x80 ||| ((n >>> 12) &&& 0x3F),
     0x80 ||| ((n >>> 6) &&& 0x3F), 0x80 ||| (n &&& 0x3F)]

/-- The UTF-8 bytes of a string. -/
def strBytes (s : String) : List Nat := (s.data.map utf8Bytes).flatten

/-- FIPS 180-4 padding: append `0x80`, zero bytes to 56 mod 64, then the
bit length as 8 big-endian bytes. -/
def padBytes (msg : List Nat) : List Nat :=
  let bitLen := msg.length * 8
  let padZeros := (119 - msg.length % 64) % 64
  msg ++ [0x80] ++ List.replicate padZeros 0 ++
    (List.range 8).map (fun i => (bitLen >>> (8 * (7 - i))) % 256)

/-- Big-endian 32-bit words from bytes. -/
def toWords : List Nat → List Nat
  | b0 :: b1 :: b2 :: b3 :: rest =>
    (((b0 * 256 + b1) * 256 + b2) * 256 + b3) :: toWords rest
  | _ => []

/-- Split into 64-byte blocks (structural recursion on a fuel bound,
`fuel ≥ bs.length` in every call from `chunks`). -/
def chunksAux : Nat → List Nat → List (List Nat)
  | 0, _ => []
  | _, [] => []
  | fuel + 1, bs => bs.take 64 :: chunksAux fuel (bs.drop 64)

/-- Split into 64-byte blocks. -/
def chunks (bs : List Nat) : List (List Nat) := chunksAux bs.length bs

/-- The message schedule: extend the 16 block words to 64. -/
def schedule (block : List Nat) : Array Nat :=
  (List.range 48).foldl
    (fun w i =>
      w.push ((ssig1 w[i + 14]! + w[i + 9]! + ssig0 w[i + 1]! + w[i]!) % M32))
    block.toArray

/-- One compression round on the working variables `[a,b,c,d,e,f,g,h]`. -/
def round (st : List Nat) (k w : Nat) : List Nat :=
  match st with
  | [a, b, c, d, e, f, g, h] =>
    let t1 := (h + bsig1 e + ch e f g + k + w) % M32
    let t2 := (bsig0 a + maj a b c) % M32
    [(t1 + t2) % M32, a, b, c, (d + t1) % M32, e, f, g]
  | other => other

/-- Compress one 64-byte block into the running hash (8 words). -/
def compressBlock (h : List Nat) (block : List Nat) : List Nat :=
  let w := schedule block
  let final := (List.range 64).foldl (fun st i => round st K[i]! w[i]!) h
  (h.zip final).map (fun p => (p.1 + p.2) % M32)

/-- One lowercase hex digit. -/
def hexDigit (n : Nat) : Char :=
  if n < 10 then Char.ofNat (48 + n) else Char.ofNat (87 + n)

/-- Eight lowercase hex digits of a 32-bit word, most significant first. -/
def wordHex (w : Nat) : List Char :=
  (List.range 8).map (fun i => hexDigit ((w >>> (4 * (7 - i))) % 16))

/-- Function `sha256::digest`: the lowercase hex SHA-256 digest of the UTF-8 bytes
of `s`. -/
def digest (s : String) : String :=
  let blocks := (chunks (padBytes (strBytes s))).map toWords
  let h := blocks.foldl compressBlock H0
  String.mk (h.map wordHex).flatten

end sha256

namespace Querylib

/-- Function `calculate_checksum` (migrations.rs lines 187-189):
`sha256::digest(content).to_string()` (`to_string` on a `String` is the
identity). -/
def calculate_checksum (content : String) : String :=
  sha256.digest content

/-! ## File-system model and script discovery (`gather_migrations`)

`fs::read_dir` either fails (`none`) or yields entries, each of which can
itself be an error (`entry.ok()` filters those out).  A readable entry has
a path; `fs::read_to_string` on it either succeeds with the file's full
text or fails (`content = none`).  `Path::file_name` / `Path::extension`
are modelled on `/`-separated path strings following Rust's `std::path`
semantics. -/

/-- One successful `fs::read_dir` entry: its path, and the outcome of
`fs::read_to_string` on it (`none` when the read fails). -/
structure DirEntry where
  path : String
  content : Option String
  deriving DecidableEq, Repr

/-- Normalized path components: `/`-separated pieces, with empty pieces
and `.` pieces dropped, as Rust's `Path::components` does. -/
def pathComponents (path : String) : List String :=
  (path.splitOn "/").filter (fun c => !(c == "") && !(c == "."))

/-- Rust `Path::file_name`: the final path component, unless the path
ends in `..` or has no components. -/
def fileNameOf (path : String) : Option String :=
  match (pathComponents path).getLast? with
  | none => none
  | some c => if c = ".." then none else some c

/-- Rust `Path::extension`: the part of the file name after its last `.`,
provided there is a `.` that is not the leading character of the name. -/
def extensionOf (path : String) : Option String :=
  match fileNameOf path with
  | none => none
  | some fname =>
    match fname.splitOn "." with
    | [] => none
    | [_] => none
    | p0 :: rest => if p0 = "" ∧ rest.length = 1 then none else rest.getLast?

/-- Function `process_file` (migrations.rs lines 170-184): keeps the entry only if
its extension is `cyp` or `cypher` (each `?` propagating a missing
extension or file name as `None`), reads the file (`ok()?`: a failed read
yields `None`), and builds the `FileMigration`. -/
def process_file (file_path : DirEntry) : Option FileMigration := do
  let ext ← extensionOf file_path.path
  if ext = "cyp" ∨ ext = "cypher" then
    let file_name ← fileNameOf file_path.path
    let cypher_text ← file_path.content
    let checksum := calculate_checksum cypher_text
    pure { checksum := checksum, file_name := file_name, cypher_text := cypher_text }
  else
    none

/-- Function `gather_migrations` (migrations.rs lines 53-62).  Its argument is the
outcome of `fs::read_dir folder_path`: `none` when the directory cannot be
read (yielding `[]`), otherwise the entries in enumeration order, each
either unreadable (`none`, dropped by `.filter_map(|entry| entry.ok())`)
or a `DirEntry` handed to `process_file`. -/
def gather_migrations (dir : Option (List (Option DirEntry))) : List FileMigration :=
  match dir with
  | some entries => (entries.filterMap id).filterMap process_file
  | none => []

end Querylib

/-! ## Parameter mapping (`src/parameterize.rs`)

`parameterize` serializes a value with `serde_json::to_value`, converts
the JSON value to a `neo4rs::BoltType` with `BoltType::try_from`, and
`unwrap`s.  JSON values are modelled flat (a primitive, or an object of
primitive fields): that is the exact shape `serde` produces for
`MigrationsNode`, whose five fields are primitives or timestamps; the two
conversion steps are passed in as functions so that their failure can be
modelled.  A timestamp serializes as a primitive (here its abstract `Nat`
instant).  Rust's `unwrap` panic is modelled as `none`: on failure no
value — in particular no degraded value — is returned. -/

namespace Querylib

/-- A primitive JSON value. -/
inductive JsonPrim where
  | str (s : String)
  | num (n : Nat)
  deriving DecidableEq, Repr

/-- A JSON value as produced by `serde_json::to_value` on the types this
code serializes: a primitive or a flat object. -/
inductive JsonValue where
  | prim (p : JsonPrim)
  | obj (fields : List (String × JsonPrim))
  deriving DecidableEq, Repr

/-- Type `neo4rs::BoltType`, restricted to the constructors reachable here. -/
inductive BoltType where
  | string (s : String)
  | integer (n : Nat)
  | map (fields : List (String × BoltType))

/-- Function `struct_to_hashmap` (parameterize.rs lines 11-16):
`serde_json::to_value(instance)?` (failure becomes
`QueryError::SerializationError` via `#[from]`), then
`BoltType::try_from(value)?` (its driver-error failure becomes
`QueryError::ExecutionError` via `#[from]`). -/
def struct_to_hashmap {T : Type} (toJson : T → Except Unit JsonValue)
    (tryFromJson : JsonValue → Except Unit BoltType) (inst : T) :
    Except QueryError BoltType :=
  match toJson inst with
  | .error _ => .error .SerializationError
  | .ok value =>
    match tryFromJson value with
    | .error _ => .error .ExecutionError
    | .ok bolt_type => .ok bolt_type

/-- Function `parameterize` (parameterize.rs lines 7-9):
`struct_to_hashmap(&instance).unwrap()` — on `Err` the Rust function
panics, modelled as `none`; it never returns a value built from a failed
serialization. -/
def parameterize {T : Type} (toJson : T → Except Unit JsonValue)
    (tryFromJson : JsonValue → Except Unit BoltType) (inst : T) :
    Option BoltType :=
  (struct_to_hashmap toJson tryFromJson inst).toOption

/-- Instance `serde::Serialize` for `MigrationsNode` (the derived instance):
serialization of a struct of primitive fields always succeeds and yields
the flat object of its fields in declaration order. -/
def migrationsNodeToJson (node : MigrationsNode) : Except Unit JsonValue :=
  .ok (.obj
    [("checksum", .str node.checksum),
     ("file_name", .str node.file_name),
     ("cypher_text", .str node.cypher_text),
     ("version", .num node.version),
     ("timestamp", .num node.timestamp)])

/-- Conversion `BoltType::try_from` on a primitive JSON value. -/
def boltOfPrim : JsonPrim → BoltType
  | .str s => .string s
  | .num n => .integer n

/-- Conversion `BoltType::try_from` (the conversion used by `struct_to_hashmap`):
on the flat JSON values modelled here the conversion always succeeds,
field by field. -/
def boltTryFrom (v : JsonValue) : Except Unit BoltType :=
  match v with
  | .prim p => .ok (boltOfPrim p)
  | .obj fields => .ok (.map (fields.map (fun f => (f.1, boltOfPrim f.2))))

/-! ## Derived descriptions used by the theorems -/

/-- The chain node that applying `m` at 0-based position `counter`, wall
clock `clock`, writes (see `create_migration_node`). -/
def appliedNode (counter clock : Nat) (m : FileMigration) : MigrationsNode :=
  { checksum := m.checksum
    file_name := m.file_name
    cypher_text := m.file_name
    version := counter + 1
    timestamp := clock }

/-- The chain nodes a run of all-new migrations appends, first one at
0-based position `i` and wall clock `clock`. -/
def appliedRecords (i clock : Nat) : List FileMigration → List MigrationsNode
  | [] => []
  | m :: rest => appliedNode i clock m :: appliedRecords (i + 1) (clock + 1) rest

/-- Modelled from the spec (the refinement target for C5): a missing or
unreadable directory yields the empty sequence; unreadable entries are
skipped; exactly the readable files whose extension is `cyp` or `cypher`
are kept, in enumeration order, each as a `FileMigration` carrying the
path's final component, the file's full text, and the text's fingerprint. -/
def gatherSpec : Option (List (Option DirEntry)) → List FileMigration
  | none => []
  | some entries =>
    entries.filterMap (fun e =>
      match e with
      | none => none
      | some f =>
        match extensionOf f.path, fileNameOf f.path, f.content with
        | some ext, some nm, some text =>
          if ext = "cyp" ∨ ext = "cypher" then
            some { checksum := calculate_checksum text, file_name := nm,
                   cypher_text := text }
          else none
        | _, _, _ => none)

/-! ## Helper lemmas -/

/-- Lemma: `find?` is the head of `filter`. -/
theorem find?_eq_head_filter {α : Type} (p : α → Bool) (l : List α) :
    l.find? p = (l.filter p).head? := by
  induction l with
  | nil => rfl
  | cons a t ih =>
    cases h : p a with
    | true => rw [List.find?_cons_of_pos _ h, List.filter_cons_of_pos h]; rfl
    | false =>
      have h2 : ¬p a = true := by simp [h]
      rw [List.find?_cons_of_neg _ h2, List.filter_cons_of_neg h2]; exact ih

/-- Behaviour of `get_existing_migration` against a reliable store returns the first
chain node bearing the requested file name, having opened and released
exactly one (never-committed) transaction. -/
theorem get_existing_migration_okGet (st : Store) (name : String) :
    get_existing_migration okGet st name =
      ([.start, .rollback],
       .ok (st.chain.find? (fun m => m.file_name = name))) := by
  unfold get_existing_migration okGet
  simp only [Bool.false_eq_true, if_false]
  rw [find?_eq_head_filter]
  cases st.chain.filter (fun m => m.file_name = name) with
  | nil => rfl
  | cons a t => rfl

/-- Behaviour of `up_migration` on a candidate whose chain record exists with a
differing checksum: `ChecksumMismatch`, store untouched. -/
theorem up_migration_mismatch (i : Nat) (st : Store) (m : FileMigration)
    (ex : MigrationsNode)
    (hfound : st.chain.find? (fun node => node.file_name = m.file_name) = some ex)
    (hdiff : ex.checksum ≠ m.checksum) :
    up_migration okGet okCreate i st m =
      (st, [.start, .rollback], some .ChecksumMismatch) := by
  unfold up_migration
  rw [get_existing_migration_okGet, hfound]
  simp [hdiff]

/-- Behaviour of `up_migration` on a candidate whose chain record exists with the same
checksum: skip, store untouched, no error. -/
theorem up_migration_skip (i : Nat) (st : Store) (m : FileMigration)
    (ex : MigrationsNode)
    (hfound : st.chain.find? (fun node => node.file_name = m.file_name) = some ex)
    (hsame : ex.checksum = m.checksum) :
    up_migration okGet okCreate i st m = (st, [.start, .rollback], none) := by
  unfold up_migration
  rw [get_existing_migration_okGet, hfound]
  simp [hsame]

/-- Behaviour of `up_migration` on a candidate with no chain record: the script is
executed and committed in one transaction, and the new node — checksum and
file name from the candidate, `cypher_text` the file name, version
`i + 1`, timestamp the wall clock — is written and committed in a second
transaction. -/
theorem up_migration_apply (i : Nat) (st : Store) (m : FileMigration)
    (hnone : st.chain.find? (fun node => node.file_name = m.file_name) = none) :
    up_migration okGet okCreate i st m =
      ({ chain := st.chain ++ [appliedNode i st.clock m],
         executed := st.executed ++ [m.cypher_text],
         clock := st.clock + 1 },
       [.start, .rollback, .start, .commit, .start, .commit], none) := by
  unfold up_migration
  rw [get_existing_migration_okGet, hnone]
  rfl

/-- A successful run of a prefix composes with the run of the rest, the
counter advancing by the prefix's length. -/
theorem run_migrations_from_append (xs : List FileMigration) (i : Nat)
    (st st1 : Store) (ys : List FileMigration)
    (h : run_migrations_from i st xs = (st1, none)) :
    run_migrations_from i st (xs ++ ys) =
      run_migrations_from (i + xs.length) st1 ys := by
  induction xs generalizing i st with
  | nil =>
    simp only [run_migrations_from] at h
    cases h
    simp [run_migrations_from]
  | cons m rest ih =>
    simp only [List.cons_append, run_migrations_from] at h ⊢
    cases hup : up_migration okGet okCreate i st m with
    | mk st2 p =>
      cases p with
      | mk tr res =>
        cases res with
        | some e =>
          rw [hup] at h
          dsimp only at h
          simp at h
        | none =>
          rw [hup] at h
          dsimp only at h
          show run_migrations_from (i + 1) st2 (rest ++ ys) =
            run_migrations_from (i + (m :: rest).length) st1 ys
          rw [ih (i + 1) st2 h]
          have harith : i + 1 + rest.length = i + (m :: rest).length := by
            simp only [List.length_cons]
            omega
          rw [harith]

/-- A run of all-new migrations (none recorded yet, pairwise distinct
file names) succeeds and appends exactly the positional records. -/
theorem run_migrations_from_all_new (ms : List FileMigration) (i : Nat) (st : Store)
    (hnew : ∀ m ∈ ms, st.chain.find? (fun node => node.file_name = m.file_name) = none)
    (hdist : ms.Pairwise (fun a b => a.file_name ≠ b.file_name)) :
    run_migrations_from i st ms =
      ({ chain := st.chain ++ appliedRecords i st.clock ms,
         executed := st.executed ++ ms.map (fun m => m.cypher_text),
         clock := st.clock + ms.length }, none) := by
  induction ms generalizing i st with
  | nil =>
    simp only [run_migrations_from, appliedRecords, List.map_nil, List.append_nil,
      List.length_nil, Nat.add_zero]
  | cons m rest ih =>
    have hm := hnew m (List.mem_cons_self m rest)
    have happly := up_migration_apply i st m hm
    simp only [run_migrations_from, happly]
    have hrest : ∀ m2 ∈ rest,
        (st.chain ++ [appliedNode i st.clock m]).find?
          (fun node => node.file_name = m2.file_name) = none := by
      intro m2 hm2
      rw [List.find?_eq_none]
      intro x hx
      rcases List.mem_append.mp hx with hx1 | hx2
      · have := List.find?_eq_none.mp (hnew m2 (List.mem_cons_of_mem m hm2)) x hx1
        exact this
      · have hxeq : x = appliedNode i st.clock m := by
          simpa using hx2
        subst hxeq
        have hne : m.file_name ≠ m2.file_name :=
          (List.pairwise_cons.mp hdist).1 m2 hm2
        simp [appliedNode, hne]
    have hdrest : rest.Pairwise (fun a b => a.file_name ≠ b.file_name) :=
      (List.pairwise_cons.mp hdist).2
    rw [ih (i + 1) _ hrest hdrest]
    simp only [appliedRecords, List.map_cons, List.length_cons, Prod.mk.injEq,
      Store.mk.injEq, List.append_assoc, List.singleton_append, List.cons_append,
      and_true, true_and, List.nil_append]
    omega

/-- The records a run appends are as many as the candidates. -/
theorem appliedRecords_length (ms : List FileMigration) (i c : Nat) :
    (appliedRecords i c ms).length = ms.length := by
  induction ms generalizing i c with
  | nil => rfl
  | cons m rest ih => simp [appliedRecords, ih]

/-- The versions of the records a run appends enumerate the positions. -/
theorem appliedRecords_versions (ms : List FileMigration) (i c : Nat) :
    (appliedRecords i c ms).map (fun node => node.version) =
      (List.range ms.length).map (fun k => k + i + 1) := by
  induction ms generalizing i c with
  | nil => rfl
  | cons m rest ih =>
    simp only [appliedRecords, List.map_cons, appliedNode, ih (i + 1) (c + 1),
      List.length_cons, List.range_succ_eq_map, List.map_map, List.cons.injEq]
    refine ⟨by omega, List.map_congr_left (fun a _ => ?_)⟩
    simp only [Function.comp_apply]
    omega

/-! ## Claims -/

/-- C1: for every ordered list of `FileMigration`s, if `run_migrations`
reaches a migration whose `file_name` has an existing chain record whose
checksum differs from the candidate's, the run fails right there with
`ChecksumMismatch`: the final store is exactly the store reached before
that migration, whatever the later migrations are (none of them is
attempted), and the existing record is still found unchanged in the final
chain. -/
theorem C1_checksum_mismatch_fails_fast
    (st st1 : Store) (pre post : List FileMigration) (m : FileMigration)
    (ex : MigrationsNode)
    (hpre : run_migrations_from 0 st pre = (st1, none))
    (hfound : st1.chain.find? (fun node => node.file_name = m.file_name) = some ex)
    (hdiff : ex.checksum ≠ m.checksum) :
    run_migrations st (pre ++ m :: post) = (st1, some .ChecksumMismatch) ∧
    st1.chain.find? (fun node => node.file_name = m.file_name) = some ex := by
  refine ⟨?_, hfound⟩
  unfold run_migrations
  rw [run_migrations_from_append pre 0 st st1 (m :: post) hpre]
  simp only [run_migrations_from]
  rw [up_migration_mismatch _ _ _ ex hfound hdiff]

/-- C1 witness: a one-record chain, a changed `a.cyp`, a pending `b.cyp`:
the run halts with `ChecksumMismatch` leaving the store untouched. -/
theorem C1_checksum_mismatch_fails_fast_witness :
    run_migrations ⟨[⟨"old", "a.cyp", "a.cyp", 1, 5⟩], [], 10⟩
        ([] ++ (⟨"new", "a.cyp", "T"⟩ : FileMigration) :: [⟨"c2", "b.cyp", "U"⟩]) =
      (⟨[⟨"old", "a.cyp", "a.cyp", 1, 5⟩], [], 10⟩, some .ChecksumMismatch) ∧
    (Store.mk [⟨"old", "a.cyp", "a.cyp", 1, 5⟩] [] 10).chain.find?
        (fun node => node.file_name = (⟨"new", "a.cyp", "T"⟩ : FileMigration).file_name) =
      some ⟨"old", "a.cyp", "a.cyp", 1, 5⟩ :=
  C1_checksum_mismatch_fails_fast
    ⟨[⟨"old", "a.cyp", "a.cyp", 1, 5⟩], [], 10⟩
    ⟨[⟨"old", "a.cyp", "a.cyp", 1, 5⟩], [], 10⟩
    [] [⟨"c2", "b.cyp", "U"⟩] ⟨"new", "a.cyp", "T"⟩ ⟨"old", "a.cyp", "a.cyp", 1, 5⟩
    rfl (by decide) (by decide)

/-- C2: applying a candidate at 0-based index `i` with no existing chain
record executes the script's full `cypher_text` and commits it in one
transaction, then in a second, separate transaction writes and commits a
`MigrationsNode` whose checksum and file name are the candidate's, whose
`cypher_text` field is the file name (not the script body), whose version
is `i + 1` and whose timestamp is the wall clock at application.  (The
leading `start`/`rollback` pair is the released lookup transaction of
`get_existing_migration`.) -/
theorem C2_apply_new_candidate (i : Nat) (st : Store) (m : FileMigration)
    (hnone : st.chain.find? (fun node => node.file_name = m.file_name) = none) :
    up_migration okGet okCreate i st m =
      ({ chain := st.chain ++
           [{ checksum := m.checksum, file_name := m.file_name,
              cypher_text := m.file_name, version := i + 1, timestamp := st.clock }],
         executed := st.executed ++ [m.cypher_text],
         clock := st.clock + 1 },
       [.start, .rollback, .start, .commit, .start, .commit], none) :=
  up_migration_apply i st m hnone

/-- C2 witness: a fresh store and one new candidate. -/
theorem C2_apply_new_candidate_witness :
    up_migration okGet okCreate 0 ⟨[], [], 7⟩ ⟨"cs", "a.cyp", "CREATE (a)"⟩ =
      (⟨[⟨"cs", "a.cyp", "a.cyp", 1, 7⟩], ["CREATE (a)"], 8⟩,
       [.start, .rollback, .start, .commit, .start, .commit], none) :=
  C2_apply_new_candidate 0 ⟨[], [], 7⟩ ⟨"cs", "a.cyp", "CREATE (a)"⟩ rfl

/-- C3: migrations are applied strictly sequentially in list order; each
record written carries version `position + 1`, regardless of the versions
already recorded in the chain (last conjunct, over every store); a run
over `N` all-new candidates yields exactly `N` records whose versions are
`1..N` in application order. -/
theorem C3_versions_enumerate_positions (st : Store) (ms : List FileMigration)
    (hnew : ∀ m ∈ ms, st.chain.find? (fun node => node.file_name = m.file_name) = none)
    (hdist : ms.Pairwise (fun a b => a.file_name ≠ b.file_name)) :
    run_migrations st ms =
      ({ chain := st.chain ++ appliedRecords 0 st.clock ms,
         executed := st.executed ++ ms.map (fun m => m.cypher_text),
         clock := st.clock + ms.length }, none) ∧
    (appliedRecords 0 st.clock ms).length = ms.length ∧
    (appliedRecords 0 st.clock ms).map (fun node => node.version) =
      (List.range ms.length).map (fun k => k + 1) ∧
    (∀ (j : Nat) (st2 : Store) (m : FileMigration),
        st2.chain.find? (fun node => node.file_name = m.file_name) = none →
        (up_migration okGet okCreate j st2 m).1.chain =
          st2.chain ++ [appliedNode j st2.clock m]) := by
  refine ⟨run_migrations_from_all_new ms 0 st hnew hdist, appliedRecords_length ms 0 st.clock,
    ?_, fun j st2 m hm => by rw [up_migration_apply j st2 m hm]⟩
  rw [appliedRecords_versions ms 0 st.clock]

/-- C3 witness: two fresh candidates on an empty chain produce versions
`[1, 2]`. -/
theorem C3_versions_enumerate_positions_witness :
    run_migrations ⟨[], [], 0⟩ [⟨"c1", "a.cyp", "A"⟩, ⟨"c2", "b.cyp", "B"⟩] =
      ({ chain := [] ++ appliedRecords 0 0 [⟨"c1", "a.cyp", "A"⟩, ⟨"c2", "b.cyp", "B"⟩],
         executed := [] ++ [⟨"c1", "a.cyp", "A"⟩,
           (⟨"c2", "b.cyp", "B"⟩ : FileMigration)].map (fun m => m.cypher_text),
         clock := 0 + 2 }, none) ∧
    (appliedRecords 0 0 [⟨"c1", "a.cyp", "A"⟩, ⟨"c2", "b.cyp", "B"⟩]).length = 2 ∧
    (appliedRecords 0 0 [⟨"c1", "a.cyp", "A"⟩, ⟨"c2", "b.cyp", "B"⟩]).map
        (fun node => node.version) = (List.range 2).map (fun k => k + 1) ∧
    (∀ (j : Nat) (st2 : Store) (m : FileMigration),
        st2.chain.find? (fun node => node.file_name = m.file_name) = none →
        (up_migration okGet okCreate j st2 m).1.chain =
          st2.chain ++ [appliedNode j st2.clock m]) :=
  C3_versions_enumerate_positions ⟨[], [], 0⟩
    [⟨"c1", "a.cyp", "A"⟩, ⟨"c2", "b.cyp", "B"⟩]
    (by decide) (by decide)

/-- C4: a candidate whose existing chain record has an equal checksum is
skipped: the store is unchanged (no script execution, no new record), no
error is produced, and the run continues with the next script at the next
counter. -/
theorem C4_equal_checksum_skips (i : Nat) (st : Store) (m : FileMigration)
    (ex : MigrationsNode) (rest : List FileMigration)
    (hfound : st.chain.find? (fun node => node.file_name = m.file_name) = some ex)
    (hsame : ex.checksum = m.checksum) :
    up_migration okGet okCreate i st m = (st, [.start, .rollback], none) ∧
    run_migrations_from i st (m :: rest) = run_migrations_from (i + 1) st rest := by
  have h := up_migration_skip i st m ex hfound hsame
  refine ⟨h, ?_⟩
  simp only [run_migrations_from, h]

/-- Lemma: `process_file` written as one case split over the entry's extension,
file name and readability. -/
theorem process_file_cases (f : DirEntry) :
    process_file f =
      match extensionOf f.path, fileNameOf f.path, f.content with
      | some ext, some nm, some text =>
        if ext = "cyp" ∨ ext = "cypher" then
          some { checksum := calculate_checksum text, file_name := nm,
                 cypher_text := text }
        else none
      | _, _, _ => none := by
  cases hext : extensionOf f.path with
  | none => simp [process_file, hext]
  | some ext =>
    by_cases hcy : ext = "cyp" ∨ ext = "cypher" <;>
      cases hnm : fileNameOf f.path <;>
      cases hct : f.content <;>
      simp [process_file, hext, hnm, hct, hcy]

/-- C5: `gather_migrations` never fails (it is a total function into
lists): a missing or unreadable directory yields `[]`, and otherwise the
result is exactly the spec-side description `gatherSpec` — the readable
entries with extension `cyp` or `cypher`, in enumeration order, with the
final path component, full text, and the text's checksum. -/
theorem C5_gather_is_best_effort (dir : Option (List (Option DirEntry))) :
    gather_migrations dir = gatherSpec dir ∧
    gather_migrations none = [] := by
  refine ⟨?_, rfl⟩
  cases dir with
  | none => rfl
  | some entries =>
    simp only [gather_migrations, gatherSpec]
    induction entries with
    | nil => rfl
    | cons e rest ih =>
      cases e with
      | none => simpa [List.filterMap_cons] using ih
      | some f =>
        simp only [List.filterMap_cons, id] at ih ⊢
        rw [← process_file_cases f]
        cases hpf : process_file f with
        | none => simpa [hpf] using ih
        | some fm => simpa [hpf] using ih

/-- C4 witness: an already-applied `a.cyp` is skipped and the run moves on. -/
theorem C4_equal_checksum_skips_witness :
    up_migration okGet okCreate 0 ⟨[⟨"cs", "a.cyp", "a.cyp", 1, 5⟩], [], 9⟩
        ⟨"cs", "a.cyp", "T"⟩ =
      (⟨[⟨"cs", "a.cyp", "a.cyp", 1, 5⟩], [], 9⟩, [.start, .rollback], none) ∧
    run_migrations_from 0 ⟨[⟨"cs", "a.cyp", "a.cyp", 1, 5⟩], [], 9⟩
        ((⟨"cs", "a.cyp", "T"⟩ : FileMigration) :: []) =
      run_migrations_from 1 ⟨[⟨"cs", "a.cyp", "a.cyp", 1, 5⟩], [], 9⟩ [] :=
  C4_equal_checksum_skips 0 ⟨[⟨"cs", "a.cyp", "a.cyp", 1, 5⟩], [], 9⟩
    ⟨"cs", "a.cyp", "T"⟩ ⟨"cs", "a.cyp", "a.cyp", 1, 5⟩ []
    (by decide) (by decide)

/-- C6: `single` fails with `NoRecordsFound` exactly when the stream
yields zero rows; `get_single` maps zero rows to `Ok none`; and
`get_existing_migration` — which uses `get_single` — returns `Ok none`,
a non-error outcome, when no chain record bears the name. -/
theorem C6_no_records_semantics (Row T : Type) :
    (∀ (conv : Row → Except Unit T) (s : RowStream Row),
        single conv s = .error .NoRecordsFound ↔ s = []) ∧
    (∀ conv : Row → Except Unit (Option T),
        get_single conv ([] : RowStream Row) = .ok none) ∧
    (∀ (st : Store) (name : String),
        st.chain.find? (fun node => node.file_name = name) = none →
        (get_existing_migration okGet st name).2 = .ok none) := by
  refine ⟨fun conv s => ⟨fun hs => ?_, fun hs => by subst hs; rfl⟩,
    fun conv => rfl, fun st name h => ?_⟩
  · cases s with
    | nil => rfl
    | cons x rest =>
      cases x with
      | error u => simp [single] at hs
      | ok r => cases hcr : conv r <;> simp [single, hcr] at hs
  · rw [get_existing_migration_okGet, h]

/-- C6 witness: the three parts at concrete inputs. -/
theorem C6_no_records_semantics_witness :
    (single (fun r : Nat => Except.ok r) ([] : RowStream Nat) =
      .error .NoRecordsFound) ∧
    get_single (fun r : Nat => Except.ok (some r)) ([] : RowStream Nat) = .ok none ∧
    (get_existing_migration okGet ⟨[], [], 0⟩ "a.cyp").2 = .ok none :=
  ⟨((C6_no_records_semantics Nat Nat).1 _ _).mpr rfl,
   (C6_no_records_semantics Nat Nat).2.1 _,
   (C6_no_records_semantics Nat Nat).2.2 ⟨[], [], 0⟩ "a.cyp" rfl⟩

set_option maxRecDepth 10000 in
/-- C7: the fingerprint is the deterministic, side-effect-free SHA-256
lowercase hex digest of the script's text: `calculate_checksum` agrees
with the FIPS 180-4 implementation `sha256.digest` on every text, equal
texts always give equal checksums, and the implementation reproduces the
standard SHA-256 test vectors for `""` and `"abc"`. -/
theorem C7_checksum_is_sha256_hex :
    (∀ content : String, calculate_checksum content = sha256.digest content) ∧
    (∀ a b : String, a = b → calculate_checksum a = calculate_checksum b) ∧
    calculate_checksum "" =
      "e3b0c44298fc1c149afbf4c8996fb92427ae41e4649b934ca495991b7852b855" ∧
    calculate_checksum "abc" =
      "ba7816bf8f01cfea414140de5dae2223b00361a396177a9cb410ff61f20015ad" :=
  ⟨fun _ => rfl, fun a b h => h ▸ rfl, by decide, by decide⟩

/-- C7 witness: determinism applied at a concrete pair of equal texts. -/
theorem C7_checksum_is_sha256_hex_witness :
    calculate_checksum "abc" = calculate_checksum "abc" :=
  C7_checksum_is_sha256_hex.2.1 "abc" "abc" rfl

/-- C8: under every failure oracle — so on every exit path, error paths
included — the transactions opened by `create_migration_node` (the script
transaction and the record transaction) and by `get_existing_migration`
(the never-committed lookup transaction) are all released: each trace has
as many starts as commits-or-rollbacks. -/
theorem C8_every_transaction_released :
    (∀ (o : CreateNodeOracle) (counter : Nat) (st : Store) (m : FileMigration),
        startCount (create_migration_node o counter st m).2.1 =
          releaseCount (create_migration_node o counter st m).2.1) ∧
    (∀ (o : GetExistingOracle) (st : Store) (name : String),
        startCount (get_existing_migration o st name).1 =
          releaseCount (get_existing_migration o st name).1) := by
  constructor
  · intro o counter st m
    rcases o with ⟨b1, b2, b3, b4, b5, b6⟩
    cases b1 <;> cases b2 <;> cases b3 <;> cases b4 <;> cases b5 <;> cases b6 <;> rfl
  · intro o st name
    rcases o with ⟨b1, b2, b3⟩
    cases b1 with
    | true => rfl
    | false =>
      cases b2 with
      | true => rfl
      | false =>
        cases b3 with
        | true => rfl
        | false =>
          show startCount (get_existing_migration okGet st name).1 =
            releaseCount (get_existing_migration okGet st name).1
          rw [get_existing_migration_okGet]
          rfl

/-- C9: `parameterize` never silently degrades: whenever the
serialization pipeline fails, the Rust `unwrap` panics (modelled: `none`
— no value is returned at all); and on every `MigrationsNode`, whose
fields are all primitives or timestamps, it succeeds with the full
five-field parameter map. -/
theorem C9_parameterize_loud_or_full (T : Type) :
    (∀ (toJson : T → Except Unit JsonValue)
        (tryFromJson : JsonValue → Except Unit BoltType) (x : T) (e : QueryError),
        struct_to_hashmap toJson tryFromJson x = .error e →
        parameterize toJson tryFromJson x = none) ∧
    (∀ node : MigrationsNode,
        parameterize migrationsNodeToJson boltTryFrom node =
          some (.map
            [("checksum", .string node.checksum),
             ("file_name", .string node.file_name),
             ("cypher_text", .string node.cypher_text),
             ("version", .integer node.version),
             ("timestamp", .integer node.timestamp)])) := by
  refine ⟨fun toJson tryFromJson x e h => ?_, fun node => rfl⟩
  unfold parameterize
  rw [h]
  rfl

/-- C9 witness: a failing serializer panics (`none`); a concrete
`MigrationsNode` yields its full five-field map. -/
theorem C9_parameterize_loud_or_full_witness :
    parameterize (fun _ : Unit => Except.error ()) boltTryFrom () = none ∧
    parameterize migrationsNodeToJson boltTryFrom ⟨"c", "f.cyp", "t", 1, 2⟩ =
      some (.map
        [("checksum", .string "c"), ("file_name", .string "f.cyp"),
         ("cypher_text", .string "t"), ("version", .integer 1),
         ("timestamp", .integer 2)]) :=
  ⟨(C9_parameterize_loud_or_full Unit).1 _ _ () .SerializationError rfl,
   (C9_parameterize_loud_or_full Unit).2 ⟨"c", "f.cyp", "t", 1, 2⟩⟩

/-- C10: `all` never returns a deserialization error: an error outcome is
always `ExecutionError` and only happens when some stream advance fails;
on a stream whose advances all succeed it returns `Ok` with exactly the
successfully converted rows, in stream order, the failing rows silently
dropped. -/
theorem C10_all_drops_failed_rows (Row T : Type) :
    (∀ (conv : Row → Except Unit T) (s : RowStream Row) (e : QueryError),
        all conv s = .error e →
        e = .ExecutionError ∧ Except.error () ∈ s) ∧
    (∀ (conv : Row → Except Unit T) (s : RowStream Row),
        (∀ x ∈ s, ∃ r, x = Except.ok r) →
        all conv s = .ok (s.filterMap (fun x =>
          match x with
          | .ok r => (conv r).toOption
          | .error _ => none))) := by
  constructor
  · intro conv s e
    induction s with
    | nil => intro h; simp [all] at h
    | cons x rest ih =>
      intro h
      cases x with
      | error u =>
        simp only [all, Except.error.injEq] at h
        exact ⟨h.symm, List.mem_cons_self _ _⟩
      | ok r =>
        simp only [all] at h
        cases hcr : conv r with
        | ok t =>
          rw [hcr] at h
          cases hrest : all conv rest with
          | ok out => rw [hrest] at h; simp [Except.map] at h
          | error e2 =>
            rw [hrest] at h
            simp only [Except.map, Except.error.injEq] at h
            subst h
            exact ⟨(ih hrest).1, List.mem_cons_of_mem _ (ih hrest).2⟩
        | error u =>
          rw [hcr] at h
          exact ⟨(ih h).1, List.mem_cons_of_mem _ (ih h).2⟩
  · intro conv s hclean
    induction s with
    | nil => rfl
    | cons x rest ih =>
      have hx := hclean x (List.mem_cons_self x rest)
      rcases hx with ⟨r, rfl⟩
      have ihr := ih (fun y hy => hclean y (List.mem_cons_of_mem _ hy))
      cases hcr : conv r with
      | ok t => simp [all, hcr, ihr, List.filterMap_cons, Except.toOption, Except.map]
      | error u => simp [all, hcr, ihr, List.filterMap_cons, Except.toOption]

/-- C10 witness: a two-row stream where the second row fails to convert
yields `Ok` of just the first. -/
theorem C10_all_drops_failed_rows_witness :
    all (fun r : Nat => if r = 1 then Except.ok r else Except.error ())
        ([Except.ok 1, Except.ok 2] : RowStream Nat) =
      .ok (([Except.ok 1, Except.ok 2] : RowStream Nat).filterMap (fun x =>
        match x with
        | .ok r => ((if r = 1 then Except.ok r else Except.error ()) :
            Except Unit Nat).toOption
        | .error _ => none)) :=
  (C10_all_drops_failed_rows Nat Nat).2 _ _ (by
    intro x hx
    simp only [List.mem_cons, List.not_mem_nil, or_false] at hx
    rcases hx with rfl | rfl
    · exact ⟨1, rfl⟩
    · exact ⟨2, rfl⟩)

end Querylib
